import Mathlib

/-!
A shallow embedding of the adaptive workout-plan engine of `src/script.js`
(Training Planner PWA), covering the exercise-template catalog
(`getDayTemplate`), equipment adaptation (`adaptExerciseForEquipment`),
plan generation (`createPlan`), completion recording with carry-over
(`updateDayCompletion`), the completion ratio (`calculateDayCompletion`),
the cycle-difficulty policy (`determineNextDifficulty`) and current-plan
lookup (`getCurrentPlan`).

Modelling conventions:
* JavaScript numbers are modelled as exact rationals `ℚ`.  All quantities
  appearing in the engine (targets, completed amounts, difficulty
  multipliers, completion ratios) are small rationals, and the claims under
  study are stated at this exact-arithmetic level.
* Calendar dates are modelled as day counts: a JS `Date` instant is a
  rational number of days since an epoch, and a stored `YYYY-MM-DD` string
  (always produced by `toISOString().substring(0,10)`, i.e. a UTC midnight)
  is an integer `ℤ`.  `new Date(isoString)` re-reads that integer as the
  midnight instant; `setDate(getDate()+n)` adds `n` whole days.
* A possibly missing / `undefined` / `NaN` entry of the `completedArray`
  passed to `updateDayCompletion` is modelled as `Option ℚ` with `none` for
  all of the coerced-to-`0` cases (in JS, `x || 0` maps `undefined`, `NaN`
  and `0` to `0`; a present numeric value is `some q`).
* JS `Math.round` (round half toward positive infinity) is `jsRound`.
* In-place mutation of the `plan` / `user` records is modelled by returning
  the updated values; reading `plan.days[i]` at an in-range index is
  modelled with `List.getD` (an out-of-range index is a caller precondition
  violation in the source, per the specification).
-/

/-- The `unit` field of an exercise: `reps`, `sec`, `min` or `rest`. -/
inductive ExUnit where
  | reps
  | sec
  | minutes
  | rest
deriving DecidableEq, Repr

/-- An exercise instance as stored inside a plan day (and also the shape of a
catalog template entry, which simply has `completed = 0`).  Mirrors the plain
JS objects `{name, target, unit, description, equipment, completed}`. -/
structure Exercise where
  name : String
  target : ℚ
  unit : ExUnit
  description : String
  equipment : List String
  completed : ℚ
deriving DecidableEq, Repr

/-- A plan day: `{exercises, feedback, completion}` (script.js line 578). -/
structure Day where
  exercises : List Exercise
  feedback : String
  completion : ℚ
deriving DecidableEq, Repr

/-- A 30-day plan: `{startDate, endDate, difficulty, days}` (script.js
lines 542-585).  Dates are integer day numbers (UTC calendar dates). -/
structure Plan where
  startDate : ℤ
  endDate : ℤ
  difficulty : ℚ
  days : List Day
deriving DecidableEq, Repr

/-- User preferences: `{difficulty, equipment}`; the equipment map of
tag-to-boolean is modelled as the list of available (true) tags. -/
structure Preferences where
  difficulty : ℚ
  equipment : List String
deriving DecidableEq, Repr

/-- A user as the engine sees it: an ordered plan history plus preferences
(the password field plays no role in the engine). -/
structure User where
  plans : List Plan
  preferences : Preferences
deriving DecidableEq, Repr

/-- Default day used for (never-exercised) out-of-range `List.getD` reads. -/
def emptyDay : Day := { exercises := [], feedback := "", completion := 0 }

/-- Default exercise for out-of-range `List.getD` reads. -/
def emptyExercise : Exercise :=
  { name := "", target := 0, unit := ExUnit.reps, description := "",
    equipment := [], completed := 0 }

/-- JS `Math.round`: round to the nearest integer, halves toward `+∞`. -/
def jsRound (q : ℚ) : ℚ := ((⌊q + 1/2⌋ : ℤ) : ℚ)

/-- `getDayTemplate` (script.js lines 594-645): the static per-weekday
exercise catalog.  Indices 0-6; any other index yields `[]` (the JS
`default` branch).  The day-6 rest template has no `equipment` field in the
source, modelled as the empty requirement list. -/
def getDayTemplate (dayIndex : ℕ) : List Exercise :=
  match dayIndex with
  | 0 =>
    [ { name := "Genuflexiuni cu gantere", target := 30, unit := ExUnit.reps,
        description := "3 seturi a 10 genuflexiuni cu gantere.",
        equipment := ["gantere"], completed := 0 },
      { name := "Flotări clasice", target := 40, unit := ExUnit.reps,
        description := "4 seturi de flotări standard.",
        equipment := [], completed := 0 },
      { name := "Shoulder press cu gantere", target := 24, unit := ExUnit.reps,
        description := "3 seturi a 8 ridicări deasupra capului.",
        equipment := ["gantere"], completed := 0 },
      { name := "Flotări diamante", target := 20, unit := ExUnit.reps,
        description := "2 seturi a 10 flotări cu palmele apropiate.",
        equipment := [], completed := 0 },
      { name := "Plank", target := 60, unit := ExUnit.sec,
        description := "3 planșe de câte 20 de secunde.",
        equipment := [], completed := 0 } ]
  | 1 =>
    [ { name := "Tracțiuni asistate", target := 15, unit := ExUnit.reps,
        description := "Folosind o bandă elastică, efectuează 3 seturi a 5 tracțiuni.",
        equipment := ["banda"], completed := 0 },
      { name := "Tracțiuni negative", target := 10, unit := ExUnit.reps,
        description := "Sari la bară și coboară lent, 2-3 secunde pe repetare.",
        equipment := [], completed := 0 },
      { name := "Ramat cu gantera", target := 30, unit := ExUnit.reps,
        description := "3 seturi a 10 pentru fiecare braț.",
        equipment := ["gantere"], completed := 0 },
      { name := "Biceps curls", target := 30, unit := ExUnit.reps,
        description := "3 seturi a 10 flexii cu gantere.",
        equipment := ["gantere"], completed := 0 },
      { name := "Plank lateral", target := 60, unit := ExUnit.sec,
        description := "2 seturi, 30 de secunde pe fiecare parte.",
        equipment := [], completed := 0 } ]
  | 2 =>
    [ { name := "Mers înclinat", target := 30, unit := ExUnit.minutes,
        description := "30 de minute de mers alert pe bandă înclinată sau în aer liber.",
        equipment := [], completed := 0 },
      { name := "Stretching", target := 10, unit := ExUnit.minutes,
        description := "10 minute de stretching și mobilitate.",
        equipment := [], completed := 0 } ]
  | 3 =>
    [ { name := "Fandări", target := 40, unit := ExUnit.reps,
        description := "20 pe fiecare picior, 2 seturi.",
        equipment := [], completed := 0 },
      { name := "Flotări declinate", target := 30, unit := ExUnit.reps,
        description := "3 seturi a 10 flotări cu picioarele ridicate.",
        equipment := [], completed := 0 },
      { name := "Flotări la spalier", target := 24, unit := ExUnit.reps,
        description := "2 seturi a 12 flotări la spalier sau perete.",
        equipment := [], completed := 0 },
      { name := "Extensii triceps", target := 30, unit := ExUnit.reps,
        description := "3 seturi a 10 extensii cu gantera sau bandă.",
        equipment := ["gantere", "banda"], completed := 0 },
      { name := "Abdomene mixte", target := 30, unit := ExUnit.reps,
        description := "Combinații de crunch-uri și ridicări de picioare.",
        equipment := [], completed := 0 } ]
  | 4 =>
    [ { name := "Tracțiuni negative", target := 10, unit := ExUnit.reps,
        description := "Încetinește coborârea cât poți.",
        equipment := [], completed := 0 },
      { name := "Tracțiuni asistate", target := 15, unit := ExUnit.reps,
        description := "Bandă elastică cu rezistență medie, 3 seturi.",
        equipment := ["banda"], completed := 0 },
      { name := "Ramat inversat", target := 30, unit := ExUnit.reps,
        description := "3 seturi a 10 la spalier sau bară joasă.",
        equipment := [], completed := 0 },
      { name := "Hammer curls", target := 24, unit := ExUnit.reps,
        description := "2 seturi a 12 cu gantere.",
        equipment := ["gantere"], completed := 0 },
      { name := "Ridicări genunchi atârnat", target := 20, unit := ExUnit.reps,
        description := "3 seturi a 5-8 ridicări de genunchi.",
        equipment := [], completed := 0 } ]
  | 5 =>
    [ { name := "Alergare + mers", target := 30, unit := ExUnit.minutes,
        description := "20 minute alergare ușoară, 10 minute mers.",
        equipment := [], completed := 0 },
      { name := "Stretching", target := 15, unit := ExUnit.minutes,
        description := "Stretching amplu pentru tot corpul.",
        equipment := [], completed := 0 } ]
  | 6 =>
    [ { name := "Odihnă completă", target := 1, unit := ExUnit.rest,
        description := "Relaxează-te, hidratează-te și pregătește-te pentru săptămâna următoare.",
        equipment := [], completed := 0 } ]
  | _ => []

/-- `calculateDayCompletion` (script.js lines 652-669).  The `forEach`
accumulation of `total` and `done` is modelled as a fold over a pair. -/
def calculateDayCompletion (day : Day) : ℚ :=
  if day.exercises = [] then 0
  else
    let acc := day.exercises.foldl
      (fun (td : ℚ × ℚ) ex =>
        if ex.unit = ExUnit.rest then
          (td.1 + 1, td.2 + (if 0 < ex.completed then 1 else 0))
        else
          (td.1 + ex.target, td.2 + min ex.completed ex.target))
      (0, 0)
    if acc.1 = 0 then 0 else acc.2 / acc.1

/-- `adaptExerciseForEquipment` (script.js lines 682-705).  The `forEach`
computing `allAvailable` is modelled as a (decidable) universal test. -/
def adaptExerciseForEquipment (exercise : Exercise) (equipmentPrefs : List String) :
    Exercise :=
  if exercise.equipment = [] then exercise
  else if ∀ eq ∈ exercise.equipment, eq ∈ equipmentPrefs then exercise
  else
    { exercise with
      target := max 1 (jsRound (exercise.target * (1/2))),
      name := exercise.name ++ " (adaptat)",
      description := exercise.description ++ " (adaptat pentru lipsa echipamentului)" }

/-- The per-template body of the `createPlan` day loop after adaptation
(script.js lines 564-576): difficulty scaling (skipped for `rest` units and
non-positive targets) and `completed := 0`. -/
def scaleExercise (difficulty : ℚ) (ex : Exercise) : Exercise :=
  { ex with
    target :=
      if ex.unit ≠ ExUnit.rest ∧ 0 < ex.target then
        max 1 (jsRound (ex.target * difficulty))
      else ex.target,
    completed := 0 }

/-- The optional equipment-adaptation step of the `createPlan` day loop
(script.js lines 560-563): adaptation is applied only when preferences
(with an equipment map) were supplied. -/
def applyAdaptation (preferences : Option Preferences) : Exercise → Exercise :=
  match preferences with
  | some p => fun ex => adaptExerciseForEquipment ex p.equipment
  | none => fun ex => ex

/-- The catalog for weekday `k` after the optional equipment-adaptation step
of `createPlan`. -/
def adaptedCatalog (preferences : Option Preferences) (k : ℕ) : List Exercise :=
  (getDayTemplate k).map (applyAdaptation preferences)

/-- One generated day of `createPlan` (script.js lines 550-578). -/
def buildDay (difficulty : ℚ) (preferences : Option Preferences) (i : ℕ) : Day :=
  { exercises := (adaptedCatalog preferences (i % 7)).map (scaleExercise difficulty),
    feedback := "", completion := 0 }

/-- `createPlan` (script.js lines 542-585): a 30-day plan; `endDate` is
`startDate + 29` days. -/
def createPlan (startDate : ℤ) (difficulty : ℚ) (preferences : Option Preferences) :
    Plan :=
  { startDate := startDate,
    endDate := startDate + 29,
    difficulty := difficulty,
    days := (List.range 30).map (buildDay difficulty preferences) }

/-- `determineNextDifficulty` (script.js lines 507-520): the end-of-cycle
difficulty factor from the average per-day completion. -/
def determineNextDifficulty (plan : Plan) : ℚ :=
  let sum := plan.days.foldl (fun s d => s + calculateDayCompletion d) 0
  let avg := sum / (plan.days.length : ℚ)
  if 4/5 ≤ avg then 11/10
  else if avg < 1/2 then 4/5
  else 1

/-- `getCurrentPlan` (script.js lines 526-535).  `today` is the current
instant (`new Date()`), a rational day count; the stored `endDate` is read
back as its midnight instant, and the comparison `today > endDate` is an
instant comparison. -/
def getCurrentPlan (user : User) (today : ℚ) : Option Plan :=
  match user.plans.getLast? with
  | none => none
  | some plan => if (plan.endDate : ℚ) < today then none else some plan

/-- The coercion applied to each entry of `completedArray`
(script.js line 465): `Math.max(0, Number(completedArray[idx] || 0))`,
with missing / `undefined` / `NaN` entries (`none`) going to `0`. -/
def coerceCompleted (v : Option ℚ) : ℚ := max 0 (v.getD 0)

/-- The `ex.completed = completed` updates of the `updateDayCompletion`
`forEach` (script.js lines 464-466): each exercise's stored `completed`
becomes the coerced entry of `completedArray` at its own position.  The
positional lookup `completedArray[idx]` is modelled by consuming the value
list in lockstep (`none` once past its end). -/
def updatedExercises : List Exercise → List (Option ℚ) → List Exercise
  | [], _ => []
  | ex :: exs, vals =>
    { ex with completed := coerceCompleted vals.head?.join } :: updatedExercises exs vals.tail

/-- The `carryOver` accumulation of the same `forEach`
(script.js lines 467-478): one recovery exercise per exercise whose
`remaining = target - completed` is positive, in source order. -/
def carryOverList : List Exercise → List (Option ℚ) → List Exercise
  | [], _ => []
  | ex :: exs, vals =>
    let completed := coerceCompleted vals.head?.join
    let remaining := ex.target - completed
    (if 0 < remaining then
      [{ name := ex.name ++ " (recuperare)",
         target := remaining,
         unit := ex.unit,
         description := "Recuperează seturile nefinalizate de " ++ ex.name,
         equipment := [],
         completed := 0 }]
     else []) ++ carryOverList exs vals.tail

/-- The updated day record written back at `dayIndex` by
`updateDayCompletion` (script.js lines 462-466 and 485): new feedback,
coerced completion values, freshly recomputed cached completion ratio
(`calculateDayCompletion` reads only the exercises). -/
def recordedDay (day : Day) (completedArray : List (Option ℚ)) (feedback : String) : Day :=
  { exercises := updatedExercises day.exercises completedArray,
    feedback := feedback,
    completion := calculateDayCompletion
      { exercises := updatedExercises day.exercises completedArray,
        feedback := feedback, completion := day.completion } }

/-- The day-list effect of `updateDayCompletion` (script.js lines 460-485):
write the recorded day back at `dayIndex` and, when carry-over exists and
`dayIndex` is not the last index, append the carry-over exercises after the
existing exercises of day `dayIndex + 1`. -/
def recordDay (plan : Plan) (dayIndex : ℕ) (completedArray : List (Option ℚ))
    (feedback : String) : List Day :=
  let day := plan.days.getD dayIndex emptyDay
  let carryOver := carryOverList day.exercises completedArray
  let days := plan.days.set dayIndex (recordedDay day completedArray feedback)
  if carryOver ≠ [] ∧ dayIndex < plan.days.length - 1 then
    days.set (dayIndex + 1)
      { days.getD (dayIndex + 1) emptyDay with
        exercises := (days.getD (dayIndex + 1) emptyDay).exercises ++ carryOver }
  else days

/-- `updateDayCompletion` (script.js lines 460-500).  Returns the updated
plan together with the updated user (whose history gains a freshly generated
plan when the recorded day is the last one).  The in-place JS mutations
become `List.set` updates; `plan.days[dayIndex]` at an in-range index is
`List.getD` (out of range is a caller precondition violation). -/
def updateDayCompletion (user : User) (plan : Plan) (dayIndex : ℕ)
    (completedArray : List (Option ℚ)) (feedback : String) : Plan × User :=
  let plan' : Plan := { plan with days := recordDay plan dayIndex completedArray feedback }
  -- lines 486-499: on the last day, spawn the next plan from performance
  let user' : User :=
    if plan.days.length - 1 ≤ dayIndex then
      let difficultyFactor := determineNextDifficulty plan'
      let nextStartDate := plan.endDate + 1
      let prefs := user.preferences
      let baseDifficulty := if prefs.difficulty = 0 then 1 else prefs.difficulty
      let combinedDifficulty := baseDifficulty * difficultyFactor
      let newPlan := createPlan nextStartDate combinedDifficulty (some prefs)
      { user with plans := user.plans ++ [newPlan] }
    else user
  (plan', user')

/-- Iterated re-recording of the last day (index 29) of the same plan,
each round feeding the updated plan and user back in — the scenario of a
user saving the final day repeatedly. -/
def recordLastDayRepeatedly : ℕ → User → Plan → List (Option ℚ) → String → User × Plan
  | 0, user, plan, _, _ => (user, plan)
  | n + 1, user, plan, vals, fb =>
    let r := updateDayCompletion user plan 29 vals fb
    recordLastDayRepeatedly n r.2 r.1 vals fb

/-! ### Specification-side definitions

The following definitions transcribe the *specification's wording* (not the
source) and are used to state the claims as refinements of the code-side
definitions above. -/

/-- Spec 4.5: the contribution of one exercise to a day's total volume
(1 for a `rest`-unit exercise, the target otherwise). -/
def exTotal (ex : Exercise) : ℚ :=
  if ex.unit = ExUnit.rest then 1 else ex.target

/-- Spec 4.5: the contribution of one exercise to a day's done volume
(1 for a completed `rest` exercise, `min completed target` otherwise). -/
def exDone (ex : Exercise) : ℚ :=
  if ex.unit = ExUnit.rest then (if 0 < ex.completed then 1 else 0)
  else min ex.completed ex.target

/-- Spec 4.5: a day's total target volume. -/
def totalVolume (day : Day) : ℚ := (day.exercises.map exTotal).sum

/-- Spec 4.5: a day's done volume. -/
def doneVolume (day : Day) : ℚ := (day.exercises.map exDone).sum

/-- Spec 4.6: the difficulty policy as a pure step function of the average
completion ratio. -/
def stepFactor (avg : ℚ) : ℚ :=
  if 4/5 ≤ avg then 11/10
  else if avg < 1/2 then 4/5
  else 1

/-- Spec 4.4: the carry-over exercise synthesized from a recorded exercise
with unmet remainder. -/
def carryExercise (ex : Exercise) : Exercise :=
  { name := ex.name ++ " (recuperare)",
    target := ex.target - ex.completed,
    unit := ex.unit,
    description := "Recuperează seturile nefinalizate de " ++ ex.name,
    equipment := [],
    completed := 0 }

/-- Spec 4.4: the carry-over sequence derived from a day's recorded
exercises — one entry per exercise with positive unmet remainder
(`target - completed > 0`), in the order the source exercises appear. -/
def carrySpec (exs : List Exercise) : List Exercise :=
  exs.filterMap fun ex =>
    if 0 < ex.target - ex.completed then some (carryExercise ex) else none

/-- The total unmet remainder of a recorded exercise list (claim C1):
the sum over all exercises of the positive part of `target - completed`. -/
def totalUnmet (exs : List Exercise) : ℚ :=
  (exs.map fun ex => max 0 (ex.target - ex.completed)).sum

/-- An exercise with its `completed` field blanked, for stating that a
day's exercise roster (identity apart from recorded amounts) is unchanged. -/
def stripCompleted (ex : Exercise) : Exercise := { ex with completed := 0 }

/-- Full equipment availability: every tag the catalog ever requires (and
every tag the settings UI offers) is available. -/
def fullEquipment : List String := ["gantere", "banda", "vesta"]

/-! ### Concrete fixtures used by counterexamples and witnesses -/

/-- A 30-day plan whose days are all empty: the smallest well-formed plan
shape for exercising `updateDayCompletion`. -/
def blankPlan : Plan :=
  { startDate := 0, endDate := 29, difficulty := 1,
    days := List.replicate 30 emptyDay }

/-- A user holding `blankPlan`, baseline difficulty 1, no equipment. -/
def blankUser : User :=
  { plans := [blankPlan], preferences := { difficulty := 1, equipment := [] } }

/-- A plan for the stale-cache scenario of claim C9: day 0 has one exercise
with target 10; day 1 has one exercise with target 5 already recorded as
fully completed (cached completion 1). -/
def stalePlan : Plan :=
  { startDate := 0, endDate := 29, difficulty := 1,
    days :=
      { exercises := [{ name := "A", target := 10, unit := ExUnit.reps,
                        description := "", equipment := [], completed := 0 }],
        feedback := "", completion := 0 } ::
      { exercises := [{ name := "B", target := 5, unit := ExUnit.reps,
                        description := "", equipment := [], completed := 5 }],
        feedback := "", completion := 1 } ::
      List.replicate 28 emptyDay }

/-- The carry-over produced by recording `completed = 4` against the
target-10 exercise of `stalePlan`'s day 0. -/
def staleCarry : Exercise :=
  { name := "A (recuperare)", target := 6, unit := ExUnit.reps,
    description := "Recuperează seturile nefinalizate de A",
    equipment := [], completed := 0 }

/-- `stalePlan`'s day 1 after day 0 is recorded with `completed = 4`: the
carry-over is appended, but the cached completion ratio is still the stale
value 1. -/
def staleResultDay : Day :=
  { exercises :=
      [{ name := "B", target := 5, unit := ExUnit.reps, description := "",
         equipment := [], completed := 5 },
       staleCarry],
    feedback := "", completion := 1 }

/-- A day consisting of a single zero-target exercise: every (non-`rest`)
exercise satisfies `completed ≥ target`, yet the day's total volume is 0. -/
def zeroTargetDay : Day :=
  { exercises := [{ name := "X", target := 0, unit := ExUnit.reps,
                    description := "", equipment := [], completed := 0 }],
    feedback := "", completion := 0 }

/-- A zero-target exercise that requires equipment, for claim C5: the
adaptation path raises its target to 1 instead of leaving it at 0. -/
def zeroTargetEquipped : Exercise :=
  { name := "X", target := 0, unit := ExUnit.reps, description := "",
    equipment := ["gantere"], completed := 0 }

/-- A plan that ends on day 0 (so noon of its end date is instant `1/2`). -/
def endsTodayPlan : Plan :=
  { startDate := -29, endDate := 0, difficulty := 1,
    days := List.replicate 30 emptyDay }

/-- A user whose only plan is `endsTodayPlan`. -/
def endsTodayUser : User :=
  { plans := [endsTodayPlan], preferences := { difficulty := 1, equipment := [] } }

/-- A partially completed sample day (target 10, completed 4). -/
def sampleDay : Day :=
  { exercises := [{ name := "A", target := 10, unit := ExUnit.reps,
                    description := "", equipment := [], completed := 4 }],
    feedback := "", completion := 0 }

/-- A sample equipment-requiring exercise for instantiating the adaptation
theorem. -/
def bandExercise : Exercise :=
  { name := "T", target := 15, unit := ExUnit.reps, description := "d",
    equipment := ["banda"], completed := 0 }

/-- The second Monday catalog exercise (requires no equipment), used to
instantiate the generation-scaling theorem. -/
def flotariClasice : Exercise :=
  { name := "Flotări clasice", target := 40, unit := ExUnit.reps,
    description := "4 seturi de flotări standard.", equipment := [], completed := 0 }

/-! ### Helper lemmas -/

theorem foldl_volume (exs : List Exercise) (a b : ℚ) :
    exs.foldl
        (fun (td : ℚ × ℚ) ex =>
          if ex.unit = ExUnit.rest then
            (td.1 + 1, td.2 + (if 0 < ex.completed then 1 else 0))
          else
            (td.1 + ex.target, td.2 + min ex.completed ex.target))
        (a, b)
      = (a + (exs.map exTotal).sum, b + (exs.map exDone).sum) := by
  induction exs generalizing a b with
  | nil => simp
  | cons ex exs ih =>
    have hstep :
        (if ex.unit = ExUnit.rest then
            (a + 1, b + (if 0 < ex.completed then 1 else 0))
          else (a + ex.target, b + min ex.completed ex.target))
          = (a + exTotal ex, b + exDone ex) := by
      unfold exTotal exDone
      split_ifs <;> rfl
    simp only [List.foldl_cons, hstep, ih, List.map_cons, List.sum_cons]
    simp [add_assoc]

theorem calculateDayCompletion_eq (day : Day) :
    calculateDayCompletion day
      = if totalVolume day = 0 then 0 else doneVolume day / totalVolume day := by
  unfold calculateDayCompletion totalVolume doneVolume
  rcases hd : day.exercises with _ | ⟨e, l⟩
  · simp
  · simp only [foldl_volume]
    simp

theorem totalVolume_nonneg (day : Day)
    (h : ∀ ex ∈ day.exercises, 0 ≤ ex.target) : 0 ≤ totalVolume day := by
  apply List.sum_nonneg
  intro x hx
  simp only [List.mem_map] at hx
  obtain ⟨ex, hex, rfl⟩ := hx
  unfold exTotal
  split_ifs
  · norm_num
  · exact h ex hex

theorem doneVolume_nonneg (day : Day)
    (h : ∀ ex ∈ day.exercises, 0 ≤ ex.target ∧ 0 ≤ ex.completed) :
    0 ≤ doneVolume day := by
  apply List.sum_nonneg
  intro x hx
  simp only [List.mem_map] at hx
  obtain ⟨ex, hex, rfl⟩ := hx
  unfold exDone
  split_ifs
  · norm_num
  · norm_num
  · exact le_min (h ex hex).2 (h ex hex).1

theorem doneVolume_le_totalVolume (day : Day) : doneVolume day ≤ totalVolume day := by
  apply List.sum_le_sum
  intro ex _
  unfold exDone exTotal
  split_ifs
  · norm_num
  · norm_num
  · exact min_le_right _ _

theorem foldl_add_calc (l : List Day) (a : ℚ) :
    l.foldl (fun s d => s + calculateDayCompletion d) a
      = a + (l.map calculateDayCompletion).sum := by
  induction l generalizing a with
  | nil => simp
  | cons d l ih => simp [ih, add_assoc]

theorem jsRound_intCast (n : ℤ) : jsRound (n : ℚ) = n := by
  unfold jsRound
  rw [add_comm, Int.floor_add_int]
  norm_num

theorem jsRound_den_one {q : ℚ} (h : q.den = 1) : jsRound q = q := by
  have hq := (Rat.den_eq_one_iff q).mp h
  rw [← hq, jsRound_intCast]

theorem one_le_of_den_one_pos {q : ℚ} (hden : q.den = 1) (hpos : 0 < q) : 1 ≤ q := by
  have hq := (Rat.den_eq_one_iff q).mp hden
  rw [← hq] at hpos ⊢
  have h0 : (0 : ℤ) < q.num := by exact_mod_cast hpos
  have h1 : (1 : ℤ) ≤ q.num := by omega
  exact_mod_cast h1

theorem jsRound_mono {a b : ℚ} (h : a ≤ b) : jsRound a ≤ jsRound b := by
  unfold jsRound
  have := Int.floor_mono (show a + 1/2 ≤ b + 1/2 by linarith)
  exact_mod_cast this

theorem jsRound_half_eq_ceil {q : ℚ} (hden : q.den = 1) :
    jsRound (q * (1/2)) = ((⌈q / 2⌉ : ℤ) : ℚ) := by
  have hq := (Rat.den_eq_one_iff q).mp hden
  rw [← hq]
  rcases Int.even_or_odd q.num with ⟨m, hm⟩ | ⟨m, hm⟩
  · rw [hm]
    have h1 : ((m + m : ℤ) : ℚ) * (1/2) = (m : ℚ) := by push_cast; ring
    have h2 : ((m + m : ℤ) : ℚ) / 2 = (m : ℚ) := by push_cast; ring
    rw [h1, h2, jsRound_intCast, Int.ceil_intCast]
  · rw [hm]
    have h1 : ((2 * m + 1 : ℤ) : ℚ) * (1/2) + 1/2 = ((m + 1 : ℤ) : ℚ) := by
      push_cast; ring
    have h2 : ((2 * m + 1 : ℤ) : ℚ) / 2 = 1/2 + (m : ℚ) := by push_cast; ring
    unfold jsRound
    rw [h1, Int.floor_intCast, h2, Int.ceil_add_int]
    have h3 : ⌈(1/2 : ℚ)⌉ = 1 := by
      rw [Int.ceil_eq_iff]
      norm_num
    rw [h3]
    push_cast
    ring

theorem adaptExerciseForEquipment_available (ex : Exercise) (prefs : List String)
    (h : ∀ t ∈ ex.equipment, t ∈ prefs) : adaptExerciseForEquipment ex prefs = ex := by
  unfold adaptExerciseForEquipment
  by_cases h1 : ex.equipment = []
  · rw [if_pos h1]
  · rw [if_neg h1, if_pos h]

/-! ### Claim theorems: completion ratio and difficulty policy -/

/-- C3: the next-cycle difficulty factor is the pure step function
`avg ≥ 0.8 ↦ 1.1`, `avg < 0.5 ↦ 0.8`, otherwise `1`, applied to the mean of
the per-day completion ratios over the 30 days; in particular an average of
exactly `0.8` yields `1.1` and an average of exactly `0.5` yields `1`. -/
theorem determineNextDifficulty_stepFunction (plan : Plan)
    (h30 : plan.days.length = 30) :
    determineNextDifficulty plan
        = stepFactor ((plan.days.map calculateDayCompletion).sum / 30) ∧
      stepFactor (4/5) = 11/10 ∧ stepFactor (1/2) = 1 := by
  refine ⟨?_, by norm_num [stepFactor], by norm_num [stepFactor]⟩
  unfold determineNextDifficulty stepFactor
  rw [foldl_add_calc, h30]
  norm_num

/-- Witness for C3 at a concrete 30-day plan. -/
theorem determineNextDifficulty_stepFunction_witness :
    blankPlan.days.length = 30 ∧
      determineNextDifficulty blankPlan
        = stepFactor ((blankPlan.days.map calculateDayCompletion).sum / 30) :=
  ⟨by simp [blankPlan], (determineNextDifficulty_stepFunction blankPlan (by simp [blankPlan])).1⟩

/-- C4 (amended): for a day whose exercises have non-negative targets and
completed values, the completion ratio is in `[0,1]`; an empty exercise list
yields `0`; the ratio equals done-volume over total-volume (with the stated
per-exercise contributions), or `0` when the total volume is `0`; and a day
with positive total volume in which every non-rest exercise has
`completed ≥ target` and every rest exercise has `completed > 0` yields
exactly `1`. -/
theorem calculateDayCompletion_inRange (day : Day)
    (hval : ∀ ex ∈ day.exercises, 0 ≤ ex.target ∧ 0 ≤ ex.completed) :
    (0 ≤ calculateDayCompletion day ∧ calculateDayCompletion day ≤ 1) ∧
      (day.exercises = [] → calculateDayCompletion day = 0) ∧
      calculateDayCompletion day
        = (if totalVolume day = 0 then 0 else doneVolume day / totalVolume day) ∧
      (0 < totalVolume day →
        (∀ ex ∈ day.exercises,
            (ex.unit ≠ ExUnit.rest → ex.target ≤ ex.completed) ∧
            (ex.unit = ExUnit.rest → 0 < ex.completed)) →
        calculateDayCompletion day = 1) := by
  have heq := calculateDayCompletion_eq day
  have ht : 0 ≤ totalVolume day := totalVolume_nonneg day fun ex h => (hval ex h).1
  have hd : 0 ≤ doneVolume day := doneVolume_nonneg day hval
  have hdt := doneVolume_le_totalVolume day
  refine ⟨?_, ?_, heq, ?_⟩
  · rw [heq]
    split_ifs with h
    · norm_num
    · have hpos : 0 < totalVolume day := lt_of_le_of_ne ht (Ne.symm h)
      exact ⟨div_nonneg hd ht, (div_le_one hpos).mpr hdt⟩
  · intro h
    rw [heq, if_pos]
    unfold totalVolume
    rw [h]
    simp
  · intro hpos hfull
    rw [heq, if_neg (ne_of_gt hpos)]
    have hde : doneVolume day = totalVolume day := by
      unfold doneVolume totalVolume
      congr 1
      apply List.map_congr_left
      intro ex hex
      unfold exDone exTotal
      by_cases h1 : ex.unit = ExUnit.rest
      · rw [if_pos h1, if_pos h1, if_pos ((hfull ex hex).2 h1)]
      · rw [if_neg h1, if_neg h1, min_eq_right ((hfull ex hex).1 h1)]
    rw [hde, div_self (ne_of_gt hpos)]

/-- C4 counterexample: a (non-empty) day consisting of one zero-target
non-rest exercise satisfies the claim's full-completion condition
(`completed ≥ target` everywhere, no rest exercises), yet its completion
ratio is `0`, not `1`: the claim's "yields exactly 1" clause fails when the
day's total volume is `0`. -/
theorem calculateDayCompletion_zeroTargetDay :
    zeroTargetDay.exercises ≠ [] ∧
      (∀ ex ∈ zeroTargetDay.exercises,
          (ex.unit ≠ ExUnit.rest → ex.target ≤ ex.completed) ∧
          (ex.unit = ExUnit.rest → 0 < ex.completed)) ∧
      calculateDayCompletion zeroTargetDay = 0 ∧
      calculateDayCompletion zeroTargetDay ≠ 1 := by
  have hcalc : calculateDayCompletion zeroTargetDay = 0 := by
    rw [calculateDayCompletion_eq, if_pos]
    simp [totalVolume, zeroTargetDay, exTotal]
  refine ⟨by simp [zeroTargetDay], ?_, hcalc, by rw [hcalc]; norm_num⟩
  intro ex hex
  simp only [zeroTargetDay, List.mem_singleton] at hex
  subst hex
  exact ⟨fun _ => by norm_num, fun h => absurd h (by decide)⟩

/-- Witness for C4 at a concrete partially-completed day. -/
theorem calculateDayCompletion_inRange_witness :
    (∀ ex ∈ sampleDay.exercises, 0 ≤ ex.target ∧ 0 ≤ ex.completed) ∧
      0 ≤ calculateDayCompletion sampleDay ∧ calculateDayCompletion sampleDay ≤ 1 :=
  ⟨by intro ex hex; simp only [sampleDay, List.mem_singleton] at hex; subst hex; norm_num,
   (calculateDayCompletion_inRange sampleDay
      (by intro ex hex; simp only [sampleDay, List.mem_singleton] at hex; subst hex;
          norm_num)).1⟩

/-! ### Claim theorems: equipment adaptation -/

/-- C5 (amended): adaptation leaves an exercise unchanged exactly when it
requires no equipment or every required tag is available; otherwise it sets
the target to `max 1 ⌈target / 2⌉` (halving, rounding half up, with a floor
of 1 — so a zero target is raised to 1, not preserved, and a positive
integer target is halved with floor 1 and never increased), appends the
fixed marker to the name and the fixed note to the description, and leaves
unit and completed unchanged.  (The model is purely functional, so the
input exercise is never mutated.) -/
theorem adaptExerciseForEquipment_spec (ex : Exercise) (prefs : List String)
    (hden : ex.target.den = 1) :
    ((ex.equipment = [] ∨ ∀ t ∈ ex.equipment, t ∈ prefs) →
        adaptExerciseForEquipment ex prefs = ex) ∧
      (ex.equipment ≠ [] → (∃ t ∈ ex.equipment, t ∉ prefs) →
        (adaptExerciseForEquipment ex prefs).name = ex.name ++ " (adaptat)" ∧
        (adaptExerciseForEquipment ex prefs).description
            = ex.description ++ " (adaptat pentru lipsa echipamentului)" ∧
        (adaptExerciseForEquipment ex prefs).unit = ex.unit ∧
        (adaptExerciseForEquipment ex prefs).completed = ex.completed ∧
        (adaptExerciseForEquipment ex prefs).target
            = max 1 ((⌈ex.target / 2⌉ : ℤ) : ℚ) ∧
        (ex.target = 0 → (adaptExerciseForEquipment ex prefs).target = 1) ∧
        (0 < ex.target →
          1 ≤ (adaptExerciseForEquipment ex prefs).target ∧
            (adaptExerciseForEquipment ex prefs).target ≤ ex.target)) := by
  constructor
  · rintro (h | h)
    · unfold adaptExerciseForEquipment
      rw [if_pos h]
    · exact adaptExerciseForEquipment_available ex prefs h
  · intro hne hmiss
    have hcond : ¬ ∀ t ∈ ex.equipment, t ∈ prefs := by
      obtain ⟨t, ht, htn⟩ := hmiss
      exact fun hall => htn (hall t ht)
    have htar : (adaptExerciseForEquipment ex prefs).target
        = max 1 (jsRound (ex.target * (1/2))) := by
      unfold adaptExerciseForEquipment
      rw [if_neg hne, if_neg hcond]
    have hceil : (adaptExerciseForEquipment ex prefs).target
        = max 1 ((⌈ex.target / 2⌉ : ℤ) : ℚ) := by
      rw [htar, jsRound_half_eq_ceil hden]
    have hfields : (adaptExerciseForEquipment ex prefs).name = ex.name ++ " (adaptat)" ∧
        (adaptExerciseForEquipment ex prefs).description
            = ex.description ++ " (adaptat pentru lipsa echipamentului)" ∧
        (adaptExerciseForEquipment ex prefs).unit = ex.unit ∧
        (adaptExerciseForEquipment ex prefs).completed = ex.completed := by
      unfold adaptExerciseForEquipment
      rw [if_neg hne, if_neg hcond]
      exact ⟨rfl, rfl, rfl, rfl⟩
    refine ⟨hfields.1, hfields.2.1, hfields.2.2.1, hfields.2.2.2, hceil, ?_, ?_⟩
    · intro h0
      rw [hceil, h0]
      norm_num
    · intro hpos
      have h1 : 1 ≤ ex.target := one_le_of_den_one_pos hden hpos
      have hq := (Rat.den_eq_one_iff ex.target).mp hden
      have hceil_le : ((⌈ex.target / 2⌉ : ℤ) : ℚ) ≤ ex.target := by
        rw [← hq]
        have hn : (1 : ℤ) ≤ ex.target.num := by
          have : (1 : ℚ) ≤ (ex.target.num : ℚ) := by rw [hq]; exact h1
          exact_mod_cast this
        have hc : ⌈(ex.target.num : ℚ) / 2⌉ ≤ ex.target.num := by
          rw [Int.ceil_le]
          have : ((ex.target.num : ℚ)) / 2 ≤ (ex.target.num : ℚ) := by
            have : (0 : ℚ) ≤ (ex.target.num : ℚ) := by exact_mod_cast by omega
            linarith
          exact_mod_cast this
        exact_mod_cast hc
      rw [hceil]
      exact ⟨le_max_left _ _, max_le h1 hceil_le⟩

/-- C5 counterexample: a zero-target exercise requiring unavailable
equipment is *not* left at its original target — the adaptation path sets
`max(1, round(0 · 0.5)) = 1`. -/
theorem adaptExerciseForEquipment_zeroTarget :
    zeroTargetEquipped.target = 0 ∧
      zeroTargetEquipped.equipment ≠ [] ∧
      ¬ (∀ t ∈ zeroTargetEquipped.equipment, t ∈ ([] : List String)) ∧
      (adaptExerciseForEquipment zeroTargetEquipped []).target = 1 ∧
      (adaptExerciseForEquipment zeroTargetEquipped []).target ≠ zeroTargetEquipped.target := by
  have htar : (adaptExerciseForEquipment zeroTargetEquipped []).target = 1 := by
    have h := adaptExerciseForEquipment_spec zeroTargetEquipped []
      (by norm_num [zeroTargetEquipped])
    exact (h.2 (by simp [zeroTargetEquipped])
      ⟨"gantere", by simp [zeroTargetEquipped], by simp⟩).2.2.2.2.2.1 rfl
  refine ⟨rfl, by simp [zeroTargetEquipped], by simp [zeroTargetEquipped], htar, ?_⟩
  rw [htar]
  norm_num [zeroTargetEquipped]

/-- Witness for C5 at a concrete equipment-requiring exercise. -/
theorem adaptExerciseForEquipment_spec_witness :
    bandExercise.target.den = 1 ∧
      (adaptExerciseForEquipment bandExercise []).name = bandExercise.name ++ " (adaptat)" :=
  ⟨by norm_num [bandExercise],
   ((adaptExerciseForEquipment_spec bandExercise [] (by norm_num [bandExercise])).2
      (by simp [bandExercise]) ⟨"banda", by simp [bandExercise], by simp⟩).1⟩

/-! ### Claim theorems: current-plan lookup -/

/-- C7 (amended): for a user whose plan history has monotone non-decreasing
end dates (as all histories produced by the engine do), the current plan is
the most recently appended plan whose end date has not yet passed, and
`none` otherwise — where "passed" compares the current *instant* against the
*midnight instant* of `endDate`.  Consequently the plan stops being current
as soon as the end date's midnight has passed, i.e. it is NOT current during
the end date's own calendar day (see the counterexample). -/
theorem getCurrentPlan_spec (user : User) (today : ℚ)
    (hmono : user.plans.Pairwise fun p q => p.endDate ≤ q.endDate) :
    getCurrentPlan user today
      = (user.plans.filter fun p => decide (today ≤ (p.endDate : ℚ))).getLast? := by
  unfold getCurrentPlan
  rcases hl : user.plans.getLast? with _ | p
  · have hnil : user.plans = [] := by
      cases h : user.plans with
      | nil => rfl
      | cons a l => rw [h] at hl; simp [List.getLast?_concat] at hl
    rw [hnil]
    simp
  · have hdecomp : user.plans.dropLast ++ [p] = user.plans :=
      List.dropLast_append_getLast? p (by simp [hl])
    show (if (p.endDate : ℚ) < today then (none : Option Plan) else some p)
        = (user.plans.filter fun p => decide (today ≤ (p.endDate : ℚ))).getLast?
    by_cases hc : (p.endDate : ℚ) < today
    · rw [if_pos hc]
      have hall : ∀ q ∈ user.plans, ¬ (today ≤ (q.endDate : ℚ)) := by
        intro q hq
        rw [← hdecomp] at hq hmono
        rcases List.mem_append.mp hq with hq1 | hq2
        · have hle := (List.pairwise_append.mp hmono).2.2 q hq1 p (by simp)
          have hle' : (q.endDate : ℚ) ≤ (p.endDate : ℚ) := by exact_mod_cast hle
          intro h
          linarith
        · rw [List.mem_singleton.mp hq2]
          intro h
          linarith
      have hfil : user.plans.filter (fun p => decide (today ≤ (p.endDate : ℚ))) = [] := by
        rw [List.filter_eq_nil_iff]
        intro a ha
        simpa using hall a ha
      rw [hfil]
      rfl
    · rw [if_neg hc]
      push_neg at hc
      conv_rhs => rw [← hdecomp]
      rw [List.filter_append]
      have hone : List.filter (fun p => decide (today ≤ (p.endDate : ℚ))) [p] = [p] := by
        simp [hc]
      rw [hone, List.getLast?_concat]

/-- C7 counterexample: a plan whose `endDate` calendar day is today (the
current instant `1/2` is noon of day `0`, and `⌊1/2⌋ = 0 = endDate`) is
already reported as expired: `getCurrentPlan` returns `none`, so the plan is
not "still current on its endDate itself". -/
theorem getCurrentPlan_endDateNoon :
    getCurrentPlan endsTodayUser (1/2) = none ∧
      (⌊(1/2 : ℚ)⌋ : ℤ) = endsTodayPlan.endDate ∧
      endsTodayUser.plans.getLast? = some endsTodayPlan := by
  have h1 : endsTodayUser.plans.getLast? = some endsTodayPlan := by
    simp [endsTodayUser]
  refine ⟨?_, ?_, h1⟩
  · unfold getCurrentPlan
    rw [h1]
    show (if (endsTodayPlan.endDate : ℚ) < 1/2 then (none : Option Plan)
        else some endsTodayPlan) = none
    rw [if_pos]
    norm_num [endsTodayPlan]
  · rw [show endsTodayPlan.endDate = 0 from rfl, Int.floor_eq_iff]
    norm_num

/-- Witness for C7 at a concrete single-plan user queried at the plan's
end-date midnight. -/
theorem getCurrentPlan_spec_witness :
    (endsTodayUser.plans.Pairwise fun p q => p.endDate ≤ q.endDate) ∧
      getCurrentPlan endsTodayUser 0
        = (endsTodayUser.plans.filter fun p => decide ((0:ℚ) ≤ (p.endDate : ℚ))).getLast? :=
  ⟨by simp [endsTodayUser], getCurrentPlan_spec endsTodayUser 0 (by simp [endsTodayUser])⟩

/-! ### Claim theorems: plan generation -/

theorem getDayTemplate_default (k : ℕ) : getDayTemplate (k + 7) = [] := rfl

theorem getDayTemplate_facts (k : ℕ) :
    ∀ ex ∈ getDayTemplate k,
      (ex.target.den = 1 ∧ 1 ≤ ex.target) ∧ ex.equipment ⊆ fullEquipment := by
  match k with
  | 0 | 1 | 2 | 3 | 4 | 5 | 6 =>
    intro ex hex
    fin_cases hex <;> exact ⟨⟨by norm_num, by norm_num⟩, by decide⟩
  | n + 7 =>
    rw [getDayTemplate_default]
    intro ex hex
    exact absurd hex (List.not_mem_nil ex)

theorem adaptedCatalog_target_facts (prefs : Option Preferences) (k : ℕ) :
    ∀ c ∈ adaptedCatalog prefs k, c.target.den = 1 ∧ 1 ≤ c.target := by
  intro c hc
  unfold adaptedCatalog at hc
  rw [List.mem_map] at hc
  obtain ⟨ex, hex, rfl⟩ := hc
  have hfact := (getDayTemplate_facts k ex hex).1
  cases prefs with
  | none => exact hfact
  | some p =>
    show ((adaptExerciseForEquipment ex p.equipment).target.den = 1
        ∧ 1 ≤ (adaptExerciseForEquipment ex p.equipment).target)
    by_cases hemp : ex.equipment = []
    · unfold adaptExerciseForEquipment
      rw [if_pos hemp]
      exact hfact
    · by_cases hall : ∀ t ∈ ex.equipment, t ∈ p.equipment
      · rw [adaptExerciseForEquipment_available ex _ hall]
        exact hfact
      · push_neg at hall
        obtain ⟨t, ht, htn⟩ := hall
        have h2 := (adaptExerciseForEquipment_spec ex p.equipment hfact.1).2 hemp ⟨t, ht, htn⟩
        have htar := h2.2.2.2.2.1
        rw [htar]
        constructor
        · rcases max_choice (1 : ℚ) ((⌈ex.target / 2⌉ : ℤ) : ℚ) with hm | hm <;> rw [hm]
          · norm_num
          · exact Rat.den_intCast _
        · exact le_max_left _ _

theorem scaleExercise_one (c : Exercise) (hden : c.target.den = 1) (h1 : 1 ≤ c.target) :
    (scaleExercise 1 c).target = c.target := by
  show (if c.unit ≠ ExUnit.rest ∧ 0 < c.target then max 1 (jsRound (c.target * 1))
      else c.target) = c.target
  split_ifs with h
  · rw [mul_one, jsRound_den_one hden, max_eq_right h1]
  · rfl

theorem scaleExercise_mono_up (d : ℚ) (c : Exercise) (hden : c.target.den = 1)
    (hd : 1 ≤ d) (hu : c.unit ≠ ExUnit.rest) (hpos : 0 < c.target) :
    c.target ≤ (scaleExercise d c).target := by
  show c.target
      ≤ if c.unit ≠ ExUnit.rest ∧ 0 < c.target then max 1 (jsRound (c.target * d))
        else c.target
  rw [if_pos ⟨hu, hpos⟩]
  have hmono : jsRound (c.target * 1) ≤ jsRound (c.target * d) :=
    jsRound_mono (mul_le_mul_of_nonneg_left hd hpos.le)
  rw [mul_one, jsRound_den_one hden] at hmono
  exact le_trans hmono (le_max_right _ _)

theorem scaleExercise_mono_down (d : ℚ) (c : Exercise) (hden : c.target.den = 1)
    (hd : d ≤ 1) (hu : c.unit ≠ ExUnit.rest) (hpos : 0 < c.target) :
    (scaleExercise d c).target ≤ c.target := by
  have h1 : 1 ≤ c.target := one_le_of_den_one_pos hden hpos
  show (if c.unit ≠ ExUnit.rest ∧ 0 < c.target then max 1 (jsRound (c.target * d))
      else c.target) ≤ c.target
  rw [if_pos ⟨hu, hpos⟩]
  apply max_le h1
  have hmono : jsRound (c.target * d) ≤ jsRound (c.target * 1) :=
    jsRound_mono (mul_le_mul_of_nonneg_left hd hpos.le)
  rwa [mul_one, jsRound_den_one hden] at hmono

theorem createPlan_days_length (s : ℤ) (d : ℚ) (prefs : Option Preferences) :
    (createPlan s d prefs).days.length = 30 := by
  unfold createPlan
  simp

theorem createPlan_days_getD (s : ℤ) (d : ℚ) (prefs : Option Preferences) (i : ℕ)
    (hi : i < 30) :
    (createPlan s d prefs).days.getD i emptyDay = buildDay d prefs i := by
  unfold createPlan
  rw [List.getD_eq_getElem?_getD, List.getElem?_map, List.getElem?_range hi]
  rfl

theorem buildDay_exercises_getElem? (d : ℚ) (prefs : Option Preferences) (i j : ℕ) :
    (buildDay d prefs i).exercises[j]?
      = ((adaptedCatalog prefs (i % 7))[j]?).map (scaleExercise d) := by
  unfold buildDay
  rw [List.getElem?_map]

theorem adaptedCatalog_getElem? (prefs : Option Preferences) (k j : ℕ) :
    (adaptedCatalog prefs k)[j]?
      = ((getDayTemplate k)[j]?).map (applyAdaptation prefs) := by
  unfold adaptedCatalog
  rw [List.getElem?_map]

/-- C8: plan generation is identity-preserving and monotone in the
difficulty multiplier.  With difficulty `1` and full equipment every
generated target equals the corresponding catalog template target; and for
any preferences, a difficulty `d ≥ 1` never produces a target below the
post-adaptation catalog target of a non-rest positive-target exercise,
while `d ≤ 1` never produces one above it. -/
theorem createPlan_scaling (s : ℤ) (d : ℚ) (prefs : Option Preferences) (i j : ℕ)
    (hi : i < 30) :
    (∀ p, prefs = some p → d = 1 → fullEquipment ⊆ p.equipment →
        (((createPlan s d prefs).days.getD i emptyDay).exercises.getD j
              emptyExercise).target
          = ((getDayTemplate (i % 7)).getD j emptyExercise).target) ∧
      (∀ c, (adaptedCatalog prefs (i % 7))[j]? = some c →
        c.unit ≠ ExUnit.rest → 0 < c.target →
        ((1 ≤ d →
            c.target
              ≤ (((createPlan s d prefs).days.getD i emptyDay).exercises.getD j
                  emptyExercise).target) ∧
          (d ≤ 1 →
            (((createPlan s d prefs).days.getD i emptyDay).exercises.getD j
                emptyExercise).target ≤ c.target))) := by
  rw [createPlan_days_getD s d prefs i hi]
  constructor
  · rintro p rfl rfl hsub
    rcases hj : (getDayTemplate (i % 7))[j]? with _ | tmpl
    · have h1 : (buildDay 1 (some p) i).exercises[j]? = none := by
        rw [buildDay_exercises_getElem?, adaptedCatalog_getElem?, hj]
        rfl
      rw [List.getD_eq_getElem?_getD, h1, List.getD_eq_getElem?_getD, hj]
    · have hmem : tmpl ∈ getDayTemplate (i % 7) := List.getElem?_mem hj
      have hfacts := getDayTemplate_facts (i % 7) tmpl hmem
      have hadapt : adaptExerciseForEquipment tmpl p.equipment = tmpl :=
        adaptExerciseForEquipment_available _ _ fun t ht => hsub (hfacts.2 ht)
      have h1 : (buildDay 1 (some p) i).exercises[j]? = some (scaleExercise 1 tmpl) := by
        rw [buildDay_exercises_getElem?, adaptedCatalog_getElem?, hj]
        simp [applyAdaptation, hadapt]
      rw [List.getD_eq_getElem?_getD, h1, List.getD_eq_getElem?_getD, hj,
        Option.getD_some, Option.getD_some,
        scaleExercise_one tmpl hfacts.1.1 hfacts.1.2]
  · intro c hc hu hpos
    have hmem : c ∈ adaptedCatalog prefs (i % 7) := List.getElem?_mem hc
    have hfacts := adaptedCatalog_target_facts prefs (i % 7) c hmem
    have h1 : (buildDay d prefs i).exercises[j]? = some (scaleExercise d c) := by
      rw [buildDay_exercises_getElem?, hc]
      rfl
    rw [List.getD_eq_getElem?_getD, h1, Option.getD_some]
    exact ⟨fun hd => scaleExercise_mono_up d c hfacts.1 hd hu hpos,
           fun hd => scaleExercise_mono_down d c hfacts.1 hd hu hpos⟩

/-! ### Helper lemmas: completion recording -/

theorem length_updatedExercises (exs : List Exercise) (vals : List (Option ℚ)) :
    (updatedExercises exs vals).length = exs.length := by
  induction exs generalizing vals with
  | nil => rfl
  | cons ex exs ih => simp [updatedExercises, ih]

theorem head_join_eq_getD (vals : List (Option ℚ)) : vals.head?.join = vals.getD 0 none := by
  cases vals <;> rfl

theorem tail_getD_eq_getD (vals : List (Option ℚ)) (j : ℕ) :
    vals.tail.getD j none = vals.getD (j + 1) none := by
  cases vals <;> rfl

theorem getElem?_updatedExercises (exs : List Exercise) (vals : List (Option ℚ)) (j : ℕ) :
    (updatedExercises exs vals)[j]?
      = exs[j]?.map fun ex =>
          { ex with completed := coerceCompleted (vals.getD j none) } := by
  induction exs generalizing vals j with
  | nil => simp [updatedExercises]
  | cons ex exs ih =>
    cases j with
    | zero => cases vals <;> simp [updatedExercises, List.getD, Option.join]
    | succ j =>
      simp only [updatedExercises, List.getElem?_cons_succ, ih, tail_getD_eq_getD]

theorem map_strip_updatedExercises (exs : List Exercise) (vals : List (Option ℚ)) :
    (updatedExercises exs vals).map stripCompleted = exs.map stripCompleted := by
  induction exs generalizing vals with
  | nil => rfl
  | cons ex exs ih => simp [updatedExercises, ih, stripCompleted]

theorem carryOverList_eq_spec (exs : List Exercise) (vals : List (Option ℚ)) :
    carryOverList exs vals = carrySpec (updatedExercises exs vals) := by
  induction exs generalizing vals with
  | nil => rfl
  | cons ex exs ih =>
    simp only [carryOverList, updatedExercises, carrySpec, List.filterMap_cons]
    split_ifs with h <;>
      simp only [ih, carrySpec, carryExercise, List.singleton_append, List.nil_append]

theorem carrySpec_sum (l : List Exercise) :
    ((carrySpec l).map fun e => e.target).sum = totalUnmet l := by
  induction l with
  | nil => rfl
  | cons e l ih =>
    by_cases h : 0 < e.target - e.completed
    · have hcons : carrySpec (e :: l) = carryExercise e :: carrySpec l := by
        unfold carrySpec
        exact List.filterMap_cons_some (by rw [if_pos h])
      have hunm : totalUnmet (e :: l) = (e.target - e.completed) + totalUnmet l := by
        unfold totalUnmet
        rw [List.map_cons, List.sum_cons, max_eq_right h.le]
      rw [hcons, hunm, List.map_cons, List.sum_cons, ih]
      rfl
    · have hcons : carrySpec (e :: l) = carrySpec l := by
        unfold carrySpec
        exact List.filterMap_cons_none (by rw [if_neg h])
      have hunm : totalUnmet (e :: l) = 0 + totalUnmet l := by
        unfold totalUnmet
        rw [List.map_cons, List.sum_cons, max_eq_left (by linarith)]
      rw [hcons, hunm, ih, zero_add]

theorem carrySpec_pos (l : List Exercise) : ∀ e ∈ carrySpec l, 0 < e.target := by
  intro e he
  unfold carrySpec at he
  rw [List.mem_filterMap] at he
  obtain ⟨a, _, hfa⟩ := he
  by_cases h : 0 < a.target - a.completed
  · rw [if_pos h] at hfa
    injection hfa with hfa
    subst hfa
    exact h
  · rw [if_neg h] at hfa
    cases hfa

theorem updateDayCompletion_fst (user : User) (plan : Plan) (k : ℕ)
    (vals : List (Option ℚ)) (fb : String) :
    (updateDayCompletion user plan k vals fb).1
      = { plan with days := recordDay plan k vals fb } := rfl

theorem updateDayCompletion_snd (user : User) (plan : Plan) (k : ℕ)
    (vals : List (Option ℚ)) (fb : String) :
    (updateDayCompletion user plan k vals fb).2
      = if plan.days.length - 1 ≤ k then
          { user with
            plans := user.plans ++ [createPlan (plan.endDate + 1)
              ((if user.preferences.difficulty = 0 then 1 else user.preferences.difficulty)
                  * determineNextDifficulty
                      { plan with days := recordDay plan k vals fb })
              (some user.preferences)] }
        else user := by
  unfold updateDayCompletion
  rfl

theorem recordDay_length (plan : Plan) (k : ℕ) (vals : List (Option ℚ)) (fb : String) :
    (recordDay plan k vals fb).length = plan.days.length := by
  unfold recordDay
  dsimp only
  split_ifs <;> simp [List.length_set]

theorem getD_set_ne {α : Type} (l : List α) (a : α) {i j : ℕ} (h : i ≠ j) (d : α) :
    (l.set i a).getD j d = l.getD j d := by
  rw [List.getD_eq_getElem?_getD, List.getElem?_set_ne h, ← List.getD_eq_getElem?_getD]

theorem getD_set_self {α : Type} (l : List α) (a : α) {i : ℕ} (h : i < l.length) (d : α) :
    (l.set i a).getD i d = a := by
  rw [List.getD_eq_getElem?_getD, List.getElem?_set_self h, Option.getD_some]

theorem recordDay_of_not_carry (plan : Plan) (k : ℕ) (vals : List (Option ℚ)) (fb : String)
    (h : ¬(carryOverList (plan.days.getD k emptyDay).exercises vals ≠ []
            ∧ k < plan.days.length - 1)) :
    recordDay plan k vals fb
      = plan.days.set k (recordedDay (plan.days.getD k emptyDay) vals fb) := by
  unfold recordDay
  dsimp only
  rw [if_neg h]

theorem recordDay_of_carry (plan : Plan) (k : ℕ) (vals : List (Option ℚ)) (fb : String)
    (h1 : carryOverList (plan.days.getD k emptyDay).exercises vals ≠ [])
    (h2 : k < plan.days.length - 1) :
    recordDay plan k vals fb
      = (plan.days.set k (recordedDay (plan.days.getD k emptyDay) vals fb)).set (k + 1)
          { (plan.days.set k (recordedDay (plan.days.getD k emptyDay) vals fb)).getD
              (k + 1) emptyDay with
            exercises :=
              ((plan.days.set k (recordedDay (plan.days.getD k emptyDay) vals fb)).getD
                  (k + 1) emptyDay).exercises
                ++ carryOverList (plan.days.getD k emptyDay).exercises vals } := by
  unfold recordDay
  dsimp only
  rw [if_pos ⟨h1, h2⟩]

theorem recordDay_getD_self (plan : Plan) (k : ℕ) (vals : List (Option ℚ)) (fb : String)
    (hk : k < plan.days.length) :
    (recordDay plan k vals fb).getD k emptyDay
      = recordedDay (plan.days.getD k emptyDay) vals fb := by
  unfold recordDay
  dsimp only
  split_ifs with h
  · rw [getD_set_ne _ _ (by omega), getD_set_self _ _ hk]
  · rw [getD_set_self _ _ hk]

/-! ### Claim theorems: completion recording -/

/-- C1: for a 30-day plan, recording day `k < 29` makes day `k+1`'s exercise
list equal to its previous exercises followed by exactly one carry-over
entry per recorded exercise with positive unmet remainder, in source order;
the carry-over targets sum to the total unmet remainder and are each
positive; no day other than `k` and `k+1` is altered.  Recording on the
last day (`k = 29`) leaves every day's exercise roster unchanged (only
`completed` values, feedback and the cached ratio of day 29 change), alters
no other day, and the freshly spawned successor plan is built purely from
the (adapted, scaled) template catalog — the carry-over is dropped, not
wrapped. -/
theorem updateDayCompletion_carry_frame (user : User) (plan : Plan) (k : ℕ)
    (vals : List (Option ℚ)) (fb : String)
    (h30 : plan.days.length = 30) (hk : k < 30) :
    (k < 29 →
      ((updateDayCompletion user plan k vals fb).1.days.getD (k + 1) emptyDay).exercises
          = (plan.days.getD (k + 1) emptyDay).exercises
              ++ carrySpec (updatedExercises (plan.days.getD k emptyDay).exercises vals) ∧
        ((carrySpec (updatedExercises (plan.days.getD k emptyDay).exercises vals)).map
              fun e => e.target).sum
          = totalUnmet (updatedExercises (plan.days.getD k emptyDay).exercises vals) ∧
        (∀ e ∈ carrySpec (updatedExercises (plan.days.getD k emptyDay).exercises vals),
          0 < e.target) ∧
        (∀ m, m ≠ k → m ≠ k + 1 →
          (updateDayCompletion user plan k vals fb).1.days[m]? = plan.days[m]?)) ∧
      (k = 29 →
        (∀ m,
          ((updateDayCompletion user plan k vals fb).1.days.getD m emptyDay).exercises.map
              stripCompleted
            = ((plan.days.getD m emptyDay).exercises.map stripCompleted)) ∧
        (∀ m, m ≠ 29 →
          (updateDayCompletion user plan k vals fb).1.days[m]? = plan.days[m]?) ∧
        (∀ p ∈ (updateDayCompletion user plan k vals fb).2.plans.drop user.plans.length,
          ∀ dy ∈ p.days, ∃ t,
            dy.exercises
              = (adaptedCatalog (some user.preferences) t).map
                  (scaleExercise p.difficulty))) := by
  have hdays : (updateDayCompletion user plan k vals fb).1.days
      = recordDay plan k vals fb := rfl
  constructor
  · intro hk29
    have hk2 : k < plan.days.length - 1 := by omega
    refine ⟨?_, carrySpec_sum _, carrySpec_pos _, ?_⟩
    · rw [hdays]
      by_cases hc : carryOverList (plan.days.getD k emptyDay).exercises vals = []
      · rw [recordDay_of_not_carry plan k vals fb (fun hcontra => hcontra.1 hc)]
        rw [getD_set_ne _ _ (by omega)]
        rw [← carryOverList_eq_spec, hc, List.append_nil]
      · rw [recordDay_of_carry plan k vals fb hc hk2]
        rw [getD_set_self _ _ (by rw [List.length_set]; omega)]
        dsimp only
        rw [getD_set_ne _ _ (by omega), carryOverList_eq_spec]
    · intro m hm hm1
      rw [hdays]
      by_cases hc : carryOverList (plan.days.getD k emptyDay).exercises vals = []
      · rw [recordDay_of_not_carry plan k vals fb (fun hcontra => hcontra.1 hc)]
        exact List.getElem?_set_ne (by omega)
      · rw [recordDay_of_carry plan k vals fb hc hk2]
        rw [List.getElem?_set_ne (by omega), List.getElem?_set_ne (by omega)]
  · intro hk29
    subst hk29
    have hnc : ¬(carryOverList (plan.days.getD 29 emptyDay).exercises vals ≠ []
        ∧ 29 < plan.days.length - 1) := by
      rw [h30]
      simp
    refine ⟨?_, ?_, ?_⟩
    · intro m
      rw [hdays, recordDay_of_not_carry plan 29 vals fb hnc]
      rcases eq_or_ne m 29 with rfl | hm
      · rw [getD_set_self _ _ (by omega)]
        exact map_strip_updatedExercises _ _
      · rw [getD_set_ne _ _ (by omega)]
    · intro m hm
      rw [hdays, recordDay_of_not_carry plan 29 vals fb hnc]
      exact List.getElem?_set_ne (by omega)
    · intro p hp dy hdy
      rw [updateDayCompletion_snd, if_pos (by omega)] at hp
      dsimp only at hp
      rw [List.drop_left, List.mem_singleton] at hp
      subst hp
      simp only [createPlan, List.mem_map, List.mem_range] at hdy
      obtain ⟨i, _, rfl⟩ := hdy
      exact ⟨i % 7, rfl⟩

/-- Witness for C1 at a concrete 30-day plan, recording day 0. -/
theorem updateDayCompletion_carry_frame_witness :
    blankPlan.days.length = 30 ∧ (0 : ℕ) < 30 ∧
      ((updateDayCompletion blankUser blankPlan 0 [] "").1.days.getD 1 emptyDay).exercises
        = (blankPlan.days.getD 1 emptyDay).exercises
            ++ carrySpec (updatedExercises (blankPlan.days.getD 0 emptyDay).exercises []) :=
  ⟨by simp [blankPlan], by norm_num,
   ((updateDayCompletion_carry_frame blankUser blankPlan 0 [] "" (by simp [blankPlan])
      (by norm_num)).1 (by norm_num)).1⟩

/-- C2: recording completion on the last day (index 29) of a 30-day plan
appends exactly one new plan to the user's history (the old history is a
prefix, so the old plan remains); the new plan starts the day after the old
plan's end date, ends 29 days later, has exactly 30 days, and its difficulty
is the user's (positive) baseline preference difficulty times the
performance-derived factor computed from the just-updated plan. -/
theorem updateDayCompletion_lastDay_spawn (user : User) (plan : Plan)
    (vals : List (Option ℚ)) (fb : String)
    (h30 : plan.days.length = 30) (hd : 0 < user.preferences.difficulty) :
    ∃ newPlan : Plan,
      (updateDayCompletion user plan 29 vals fb).2.plans = user.plans ++ [newPlan] ∧
        newPlan.startDate = plan.endDate + 1 ∧
        newPlan.endDate = newPlan.startDate + 29 ∧
        newPlan.days.length = 30 ∧
        newPlan.difficulty
          = user.preferences.difficulty
              * determineNextDifficulty (updateDayCompletion user plan 29 vals fb).1 := by
  refine ⟨createPlan (plan.endDate + 1)
      (user.preferences.difficulty
        * determineNextDifficulty { plan with days := recordDay plan 29 vals fb })
      (some user.preferences), ?_, rfl, rfl, createPlan_days_length _ _ _, rfl⟩
  rw [updateDayCompletion_snd, if_pos (by omega), if_neg (ne_of_gt hd)]

/-- Witness for C2 at a concrete 30-day plan and unit-difficulty user. -/
theorem updateDayCompletion_lastDay_spawn_witness :
    blankPlan.days.length = 30 ∧ (0 : ℚ) < blankUser.preferences.difficulty ∧
      ∃ newPlan : Plan,
        (updateDayCompletion blankUser blankPlan 29 [] "").2.plans
            = blankUser.plans ++ [newPlan] ∧
          newPlan.startDate = blankPlan.endDate + 1 ∧
          newPlan.endDate = newPlan.startDate + 29 ∧
          newPlan.days.length = 30 ∧
          newPlan.difficulty
            = blankUser.preferences.difficulty
                * determineNextDifficulty
                    (updateDayCompletion blankUser blankPlan 29 [] "").1 :=
  ⟨by simp [blankPlan], by norm_num [blankUser],
   updateDayCompletion_lastDay_spawn blankUser blankPlan [] ""
     (by simp [blankPlan]) (by norm_num [blankUser])⟩

/-- C6: recording never fails on missing input; each exercise of the
recorded day stores `completed = max 0 (suppliedValue or 0)`, which is never
negative, and a missing / undefined / NaN entry is coerced to `0`. -/
theorem updateDayCompletion_coerces (user : User) (plan : Plan) (k : ℕ)
    (vals : List (Option ℚ)) (fb : String)
    (hk : k < plan.days.length) (j : ℕ)
    (hj : j < (plan.days.getD k emptyDay).exercises.length) :
    ∃ ex : Exercise,
      ((updateDayCompletion user plan k vals fb).1.days.getD k emptyDay).exercises[j]?
          = some ex ∧
        ex.completed = max 0 ((vals.getD j none).getD 0) ∧
        0 ≤ ex.completed ∧
        (vals.getD j none = none → ex.completed = 0) := by
  have hsd : ((updateDayCompletion user plan k vals fb).1.days.getD k emptyDay).exercises
      = updatedExercises (plan.days.getD k emptyDay).exercises vals := by
    have h1 : (updateDayCompletion user plan k vals fb).1.days
        = recordDay plan k vals fb := rfl
    rw [h1, recordDay_getD_self plan k vals fb hk]
    rfl
  rw [hsd, getElem?_updatedExercises, List.getElem?_eq_getElem hj]
  refine ⟨_, rfl, rfl, le_max_left _ _, fun hnone => ?_⟩
  show coerceCompleted (vals.getD j none) = 0
  rw [hnone]
  simp [coerceCompleted]

/-- Witness for C6: recording a negative supplied value stores 0. -/
theorem updateDayCompletion_coerces_witness :
    (0 : ℕ) < stalePlan.days.length ∧
      (0 : ℕ) < (stalePlan.days.getD 0 emptyDay).exercises.length ∧
      ∃ ex : Exercise,
        ((updateDayCompletion blankUser stalePlan 0 [some (-3)] "").1.days.getD 0
              emptyDay).exercises[0]?
            = some ex ∧
          ex.completed = max 0 ((([some (-3 : ℚ)]).getD 0 none).getD 0) ∧
          0 ≤ ex.completed ∧
          (([some (-3 : ℚ)]).getD 0 none = none → ex.completed = 0) :=
  ⟨by simp [stalePlan], by simp [stalePlan, List.getD],
   updateDayCompletion_coerces blankUser stalePlan 0 [some (-3)] ""
     (by simp [stalePlan]) 0 (by simp [stalePlan, List.getD])⟩

/-- C9: recording day `k < 29` of a 30-day plan changes only the `exercises`
field of day `k+1`: its feedback and cached completion are untouched.  In
particular the cached completion of day `k+1` is not recomputed and can
disagree with the ratio recomputed over the extended exercise list, as the
concrete stale-cache scenario in the second conjunct shows. -/
theorem updateDayCompletion_nextDay_untouched (user : User) (plan : Plan) (k : ℕ)
    (vals : List (Option ℚ)) (fb : String)
    (h30 : plan.days.length = 30) (hk : k < 29) :
    (((updateDayCompletion user plan k vals fb).1.days.getD (k + 1) emptyDay).feedback
          = (plan.days.getD (k + 1) emptyDay).feedback ∧
        ((updateDayCompletion user plan k vals fb).1.days.getD (k + 1) emptyDay).completion
          = (plan.days.getD (k + 1) emptyDay).completion) ∧
      ((updateDayCompletion blankUser stalePlan 0 [some 4] "").1.days.getD 1
            emptyDay).completion
        ≠ calculateDayCompletion
            ((updateDayCompletion blankUser stalePlan 0 [some 4] "").1.days.getD 1
              emptyDay) := by
  constructor
  · have hdays : (updateDayCompletion user plan k vals fb).1.days
        = recordDay plan k vals fb := rfl
    rw [hdays]
    by_cases hc : carryOverList (plan.days.getD k emptyDay).exercises vals = []
    · rw [recordDay_of_not_carry plan k vals fb (fun hcontra => hcontra.1 hc),
        getD_set_ne _ _ (by omega)]
      exact ⟨rfl, rfl⟩
    · rw [recordDay_of_carry plan k vals fb hc (by omega),
        getD_set_self _ _ (by rw [List.length_set]; omega)]
      dsimp only
      rw [getD_set_ne _ _ (by omega)]
      exact ⟨rfl, rfl⟩
  · have hday1 : (updateDayCompletion blankUser stalePlan 0 [some 4] "").1.days.getD 1
        emptyDay = staleResultDay := by
      have hdays : (updateDayCompletion blankUser stalePlan 0 [some 4] "").1.days
          = recordDay stalePlan 0 [some 4] "" := rfl
      have hc : carryOverList (stalePlan.days.getD 0 emptyDay).exercises [some 4]
          = [staleCarry] := by
        show carryOverList
            [{ name := "A", target := 10, unit := ExUnit.reps, description := "",
               equipment := [], completed := 0 }] [some 4] = [staleCarry]
        norm_num [carryOverList, coerceCompleted, staleCarry]
        exact ⟨rfl, rfl⟩
      rw [hdays, recordDay_of_carry stalePlan 0 [some 4] "" (by rw [hc]; simp)
        (by simp [stalePlan]),
        getD_set_self _ _ (by rw [List.length_set]; simp [stalePlan])]
      dsimp only
      rw [getD_set_ne _ _ (by omega), hc]
      rfl
    rw [hday1]
    have h1 : staleResultDay.completion = 1 := rfl
    have ht : totalVolume staleResultDay = 11 := by
      simp [totalVolume, staleResultDay, staleCarry, exTotal]
      norm_num
    have hdv : doneVolume staleResultDay = 5 := by
      simp [doneVolume, staleResultDay, staleCarry, exDone, min_def]
    have h2 : calculateDayCompletion staleResultDay = 5 / 11 := by
      rw [calculateDayCompletion_eq, if_neg (by rw [ht]; norm_num), ht, hdv]
    rw [h1, h2]
    norm_num

/-- Witness for C9 at a concrete 30-day plan, recording day 0. -/
theorem updateDayCompletion_nextDay_untouched_witness :
    blankPlan.days.length = 30 ∧ (0 : ℕ) < 29 ∧
      (((updateDayCompletion blankUser blankPlan 0 [] "").1.days.getD 1
            emptyDay).feedback
          = (blankPlan.days.getD 1 emptyDay).feedback ∧
        ((updateDayCompletion blankUser blankPlan 0 [] "").1.days.getD 1
              emptyDay).completion
          = (blankPlan.days.getD 1 emptyDay).completion) :=
  ⟨by simp [blankPlan], by norm_num,
   (updateDayCompletion_nextDay_untouched blankUser blankPlan 0 [] ""
     (by simp [blankPlan]) (by norm_num)).1⟩

/-- C10: recording the last day is not idempotent — `n` repeated recordings
of day 29 of a 30-day plan (each feeding the updated user and plan back in)
grow the user's plan history by exactly `n` plans; there is no guard against
duplicate successors. -/
theorem recordLastDayRepeatedly_growth (n : ℕ) (user : User) (plan : Plan)
    (vals : List (Option ℚ)) (fb : String) (h30 : plan.days.length = 30) :
    (recordLastDayRepeatedly n user plan vals fb).1.plans.length
      = user.plans.length + n := by
  induction n generalizing user plan with
  | zero => rfl
  | succ n ih =>
    have hlen : (updateDayCompletion user plan 29 vals fb).1.days.length = 30 := by
      rw [updateDayCompletion_fst]
      dsimp only
      rw [recordDay_length, h30]
    have hplans : (updateDayCompletion user plan 29 vals fb).2.plans.length
        = user.plans.length + 1 := by
      rw [updateDayCompletion_snd, if_pos (by omega)]
      dsimp only
      rw [List.length_append]
      rfl
    show (recordLastDayRepeatedly n (updateDayCompletion user plan 29 vals fb).2
        (updateDayCompletion user plan 29 vals fb).1 vals fb).1.plans.length
      = user.plans.length + (n + 1)
    rw [ih _ _ hlen, hplans]
    omega

/-- Witness for C10: two repeated last-day recordings add two plans. -/
theorem recordLastDayRepeatedly_growth_witness :
    blankPlan.days.length = 30 ∧
      (recordLastDayRepeatedly 2 blankUser blankPlan [] "").1.plans.length
        = blankUser.plans.length + 2 :=
  ⟨by simp [blankPlan],
   recordLastDayRepeatedly_growth 2 blankUser blankPlan [] "" (by simp [blankPlan])⟩

/-- Witness for C8: the scaled target of day 0's second exercise under
difficulty 2 dominates its catalog target of 40. -/
theorem createPlan_scaling_witness :
    ((adaptedCatalog (some { difficulty := 1, equipment := [] }) (0 % 7))[1]?
        = some flotariClasice) ∧
      flotariClasice.unit ≠ ExUnit.rest ∧ (0 : ℚ) < flotariClasice.target ∧
      (1 : ℚ) ≤ 2 ∧ (0 : ℕ) < 30 ∧
      flotariClasice.target
        ≤ (((createPlan 0 2 (some { difficulty := 1, equipment := [] })).days.getD 0
              emptyDay).exercises.getD 1 emptyExercise).target :=
  ⟨rfl, by decide, by norm_num [flotariClasice], by norm_num, by norm_num,
   ((createPlan_scaling 0 2 (some { difficulty := 1, equipment := [] }) 0 1
        (by norm_num)).2 flotariClasice rfl (by decide)
        (by norm_num [flotariClasice])).1 (by norm_num)⟩
